import Mathlib

/-!
Shallow embedding of `src/api/index.js`: a single-file Express service that
creates portfolio "Project" records (optionally with an image upload) and
lists them.  Pure request/response behaviour is modelled as functions on an
explicit `ServerState` (the Mongo collection, the uploads directory, store
reachability, and a clock standing for `Date.now()`).
-/

namespace PostEvent

/-! ### Model of Node's `path.extname`

`storage.filename` and `fileFilter` both call `path.extname` on the client's
original filename.  We reproduce the posix behaviour: take the basename
(characters after the last slash, ignoring trailing slashes), then the
segment from the last dot; a dot in first position (dotfile) and the
basename ".." give the empty extension. -/

/-- Characters of the basename: trailing slashes dropped, then everything
after the last remaining slash. -/
def basenameList (l : List Char) : List Char :=
  let trimmed := (l.reverse.dropWhile (fun c => c = '/')).reverse
  trimmed.foldl (fun acc c => if c = '/' then [] else acc ++ [c]) []

/-- Extension of a basename, per `path.extname`: from the last dot to the
end; empty when there is no dot, when the last dot is the first character,
or when the basename is exactly "..". -/
def extnameList (base : List Char) : List Char :=
  if base = ['.', '.'] then []
  else if base.contains '.' then
    if (base.reverse.takeWhile (fun c => c ≠ '.')).length + 1 = base.length then []
    else '.' :: (base.reverse.takeWhile (fun c => c ≠ '.')).reverse
  else []

/-- Model of `path.extname`. -/
def extname (s : String) : String :=
  ⟨extnameList (basenameList s.data)⟩

/-! ### Data model -/

/-- A file arriving in the `coverImage` multipart field.  `suffix` stands for
the nondeterministic draw `Date.now() + '-' + Math.round(Math.random()*1E9)`
made by `storage.filename` while handling this request. -/
structure UploadedFile where
  originalname : String
  mimetype : String
  size : Nat
  suffix : String
deriving DecidableEq

/-- A file written into the uploads directory by `multer.diskStorage`. -/
structure StoredFile where
  filename : String
  size : Nat
deriving DecidableEq

/-- The JSON object a client submits: either the plain JSON body or the
parsed multipart `data` field.  All fields are optional at this stage;
`coverImagePath` can be supplied by a client but is never read by the
route. -/
structure FormData where
  title : Option String
  coverImageUrl : Option String
  coverImagePath : Option String
  liveLink : Option String
  description : Option String
  techStack : Option (List String)
  price : Option String
  details : Option String
deriving DecidableEq

/-- A request body (or embedded `data` field) as raw JSON text: either it
parses to a `FormData` object or `JSON.parse` would throw on it. -/
inductive Body where
  | malformed
  | wellFormed (fd : FormData)
deriving DecidableEq

/-- A request to `POST /api/projects/create`.  The constructor records the
content-type branch taken at line 96 of the source (`multipart/form-data`
versus everything else, of which the service supports `application/json`).
For multipart requests `dataField` is the `data` side field (`none` when the
field is absent, in which case `JSON.parse(undefined)` throws). -/
inductive CreateRequest where
  | multipartReq (file : Option UploadedFile) (dataField : Option Body)
      (protocol host : String)
  | jsonReq (body : Body) (protocol host : String)
deriving DecidableEq

/-- A persisted (or about-to-be-persisted) Project document, mirroring
`ProjectSchema`.  `coverImageUrl` and `coverImagePath` are always assigned
by the route (possibly the empty string), the remaining optional fields are
stored as given.  `createdAt` is the creation timestamp. -/
structure Project where
  title : Option String
  coverImageUrl : String
  coverImagePath : String
  liveLink : Option String
  description : Option String
  techStack : List String
  price : Option String
  details : Option String
  createdAt : Nat
deriving DecidableEq

/-- The state outside a single request: the Mongo collection (`store`), the
uploads directory (`files`), whether the database is reachable (`storeUp`),
and the current `Date.now()` value (`now`). -/
structure ServerState where
  store : List Project
  files : List StoredFile
  storeUp : Bool
  now : Nat
deriving DecidableEq

/-- The HTTP responses the create route can produce, plus the response the
`express.json` body parser produces on a malformed JSON body (a 400 from
Express's default error handler, before the route runs). -/
inductive Response where
  | created (project : Project)
  | badRequest (msg : String)
  | jsonParseFailure
  | serverError
deriving DecidableEq

/-- HTTP status code of a response. -/
def Response.status : Response → Nat
  | .created _ => 201
  | .badRequest _ => 400
  | .jsonParseFailure => 400
  | .serverError => 500

/-- The `error` field of the JSON error body, when the response is the JSON
object `\x7b error: msg \x7d`; `serverError` always carries the fixed text
"Internal server error" (line 137).  The body-parser 400 is not of that
shape. -/
def Response.errorBody : Response → Option String
  | .created _ => none
  | .badRequest msg => some msg
  | .jsonParseFailure => none
  | .serverError => some "Internal server error"

/-! ### Upload handling (multer configuration, lines 43-73) -/

/-- JavaScript truthiness of an optional string: absent and empty are falsy. -/
def truthyB : Option String → Bool
  | none => false
  | some s => !decide (s = "")

/-- Lowercasing as `.toLowerCase()` does on ASCII: map `Char.toLower` over
the characters. -/
def toLowerStr (s : String) : String :=
  ⟨s.data.map Char.toLower⟩

instance {ε α : Type} [DecidableEq ε] [DecidableEq α] : DecidableEq (Except ε α) :=
  fun a b =>
    match a, b with
    | .ok x, .ok y =>
      if h : x = y then isTrue (congrArg Except.ok h)
      else isFalse (fun he => h (Except.ok.inj he))
    | .error x, .error y =>
      if h : x = y then isTrue (congrArg Except.error h)
      else isFalse (fun he => h (Except.error.inj he))
    | .ok _, .error _ => isFalse (fun he => Except.noConfusion he)
    | .error _, .ok _ => isFalse (fun he => Except.noConfusion he)

/-- Boolean prefix test on character lists. -/
def isPrefixB : List Char → List Char → Bool
  | [], _ => true
  | _ :: _, [] => false
  | a :: as, b :: bs => a == b && isPrefixB as bs

/-- Boolean substring test on character lists: `pat` occurs contiguously. -/
def containsSub (pat : List Char) : List Char → Bool
  | [] => isPrefixB pat []
  | c :: rest => isPrefixB pat (c :: rest) || containsSub pat rest

/-- The regex test `/jpeg|jpg|png|gif/.test(s)`: substring containment of
one of the four tokens. -/
def filetypesTest (s : String) : Bool :=
  containsSub "jpeg".data s.data || containsSub "jpg".data s.data ||
    containsSub "png".data s.data || containsSub "gif".data s.data

/-- The `fileFilter` callback: the regex must match both the declared media
type and the lowercased extension of the original filename. -/
def fileFilterAccepts (f : UploadedFile) : Bool :=
  filetypesTest f.mimetype && filetypesTest (toLowerStr (extname f.originalname))

/-- `limits.fileSize`: 5 * 1024 * 1024 bytes. -/
def fileSizeLimit : Nat := 5 * 1024 * 1024

/-- The name `storage.filename` generates: fixed prefix "project-", then the
timestamp-random suffix, then the original extension. -/
def generatedFilename (f : UploadedFile) : String :=
  "project-" ++ f.suffix ++ extname f.originalname

/-- The whole multer pipeline for one file: `fileFilter` first (wrong type
gives the fixed validation message), then the size limit (multer's
`LIMIT_FILE_SIZE` error carries the message "File too large"); on success
the file is written under its generated name.  On either error no file is
kept on disk. -/
def processUpload (f : UploadedFile) : Except String StoredFile :=
  if fileFilterAccepts f then
    if f.size ≤ fileSizeLimit then
      .ok { filename := generatedFilename f, size := f.size }
    else .error "File too large"
  else .error "Only image files are allowed (jpeg, jpg, png, gif)"

/-- Outcome of `JSON.parse(req.body.data)`: `none` when the field is absent
or its text is not valid JSON (both make `JSON.parse` throw). -/
def parseData : Option Body → Option FormData
  | some (.wellFormed fd) => some fd
  | some .malformed => none
  | none => none

/-! ### The create route (lines 87-139) -/

/-- Mongoose `required` validation on `project.save()`: `title`,
`description` and `details` must be present and non-empty strings. -/
def requiredOk (fd : FormData) : Bool :=
  truthyB fd.title && truthyB fd.description && truthyB fd.details

/-- Line 113: `if (!coverImageUrl && formData.coverImageUrl)` — an uploaded
file's URL takes precedence, otherwise a truthy body URL is used. -/
def resolveUrl (fd : FormData) (url0 : String) : String :=
  if decide (url0 = "") && truthyB fd.coverImageUrl then fd.coverImageUrl.getD "" else url0

/-- The document built at lines 118-127. -/
def mkProject (fd : FormData) (coverImageUrl coverImagePath : String)
    (createdAt : Nat) : Project :=
  { title := fd.title
    coverImageUrl := coverImageUrl
    coverImagePath := coverImagePath
    liveLink := fd.liveLink
    description := fd.description
    techStack := fd.techStack.getD []
    price := fd.price
    details := fd.details
    createdAt := createdAt }

/-- The tail of the route shared by all branches: resolve the cover URL,
build the document and `save()` it.  Validation failure or an unreachable
store throws, which the route's `catch` turns into a 500. -/
def finishCreate (fd : FormData) (coverImageUrl0 coverImagePath : String)
    (st : ServerState) : Response × ServerState :=
  let p := mkProject fd (resolveUrl fd coverImageUrl0) coverImagePath st.now
  if requiredOk fd then
    if st.storeUp then
      (.created p, { st with store := p :: st.store })
    else (.serverError, st)
  else (.serverError, st)

/-- The full handling of one `POST /api/projects/create` request, including
the `express.json` middleware (which rejects a malformed JSON body with a
400 before the route runs).  Inside the route: the multipart branch runs the
upload first (a multer error is answered with 400 and the message), then
`JSON.parse(req.body.data)` (a throw is caught and answered with 500, the
already-written file staying on disk), then the shared save path. -/
def handleCreateRequest (req : CreateRequest) (st : ServerState) :
    Response × ServerState :=
  match req with
  | .jsonReq .malformed _ _ => (.jsonParseFailure, st)
  | .jsonReq (.wellFormed fd) _ _ => finishCreate fd "" "" st
  | .multipartReq none d _ _ =>
    match parseData d with
    | none => (.serverError, st)
    | some fd => finishCreate fd "" "" st
  | .multipartReq (some f) d protocol host =>
    match processUpload f with
    | .error msg => (.badRequest msg, st)
    | .ok stored =>
      let st1 := { st with files := stored :: st.files }
      let coverImagePath := "/uploads/" ++ stored.filename
      let coverImageUrl := protocol ++ "://" ++ host ++ coverImagePath
      match parseData d with
      | none => (.serverError, st1)
      | some fd => finishCreate fd coverImageUrl coverImagePath st1

/-! ### The list route (lines 142-149) -/

/-- Descending order on creation time, as requested by
`sort(\x7b createdAt: -1 \x7d)`. -/
def createdDesc (a b : Project) : Prop :=
  b.createdAt ≤ a.createdAt

instance : DecidableRel createdDesc :=
  fun a b => Nat.decLe b.createdAt a.createdAt

instance : IsTotal Project createdDesc :=
  ⟨fun a b => Nat.le_total b.createdAt a.createdAt⟩

instance : IsTrans Project createdDesc :=
  ⟨fun _ _ _ hab hbc => Nat.le_trans hbc hab⟩

/-- `GET /api/projects`: `Project.find().sort(\x7b createdAt: -1 \x7d)` —
every stored document, ordered by `createdAt` descending, no filter and no
limit. -/
def listProjects (st : ServerState) : List Project :=
  List.insertionSort createdDesc st.store

/-! ### Helpers used to state the claims -/

/-- The form data a request carries, as the route would obtain it. -/
def reqFormData : CreateRequest → Option FormData
  | .multipartReq _ d _ _ => parseData d
  | .jsonReq (.wellFormed fd) _ _ => some fd
  | .jsonReq .malformed _ _ => none

/-- The file a request carries. -/
def reqFile : CreateRequest → Option UploadedFile
  | .multipartReq f _ _ _ => f
  | .jsonReq _ _ _ => none

/-- Whether the request's upload step fails (multer reports an error). -/
def uploadRejected : CreateRequest → Bool
  | .multipartReq (some f) _ _ _ =>
    match processUpload f with
    | .error _ => true
    | .ok _ => false
  | _ => false

/-- Whether an upload is accepted (a file gets stored). -/
def acceptedB (f : UploadedFile) : Bool :=
  match processUpload f with
  | .ok _ => true
  | .error _ => false

/-- Whether a response is the 201 creation response. -/
def isCreatedB : Response → Bool
  | .created _ => true
  | _ => false

/-- Shape of the suffixes `storage.filename` actually draws: decimal digits
joined by a dash.  In particular such a suffix contains no dot. -/
def suffixOk (s : String) : Bool :=
  s.data.all (fun c => c.isDigit || c == '-')

/-- The non-empty-required-fields invariant of persisted documents. -/
def projInv (q : Project) : Bool :=
  truthyB q.title && truthyB q.description && truthyB q.details

/-- The conditions under which the route's `catch` fires: the request gets
past upload validation and then either `JSON.parse` of the `data` field
throws, required-field validation fails, or the store is unreachable. -/
def routeFails (req : CreateRequest) (st : ServerState) : Bool :=
  match req with
  | .jsonReq .malformed _ _ => false
  | .jsonReq (.wellFormed fd) _ _ => !requiredOk fd || !st.storeUp
  | .multipartReq file d _ _ =>
    match file with
    | none =>
      match parseData d with
      | none => true
      | some fd => !requiredOk fd || !st.storeUp
    | some f =>
      match processUpload f with
      | .error _ => false
      | .ok _ =>
        match parseData d with
        | none => true
        | some fd => !requiredOk fd || !st.storeUp

/-- Replace the client-supplied `coverImagePath` field of a form object. -/
def FormData.setCoverImagePath (fd : FormData) (x : Option String) : FormData :=
  { fd with coverImagePath := x }

/-- Replace the client-supplied `coverImagePath` field inside a body. -/
def Body.setCoverImagePath : Body → Option String → Body
  | .malformed, _ => .malformed
  | .wellFormed fd, x => .wellFormed (fd.setCoverImagePath x)

/-- Replace the client-supplied `coverImagePath` field inside a request. -/
def CreateRequest.setCoverImagePath : CreateRequest → Option String → CreateRequest
  | .multipartReq f d p h, x => .multipartReq f (d.map (Body.setCoverImagePath · x)) p h
  | .jsonReq b p h, x => .jsonReq (b.setCoverImagePath x) p h

/-- Run a sequence of create requests, threading the state. -/
def runCreates : List CreateRequest → ServerState → ServerState
  | [], st => st
  | r :: rs, st => runCreates rs (handleCreateRequest r st).2

/-- Every request in the sequence receives a 201. -/
def allSucceed : List CreateRequest → ServerState → Bool
  | [], _ => true
  | r :: rs, st =>
    isCreatedB (handleCreateRequest r st).1 && allSucceed rs (handleCreateRequest r st).2

/-! ### Concrete fixtures for witnesses and counterexamples -/

/-- A fresh state: empty store and uploads directory, database reachable. -/
def st0 : ServerState := { store := [], files := [], storeUp := true, now := 5 }

/-- A text file offered as cover image. -/
def txtFile : UploadedFile :=
  { originalname := "notes.txt", mimetype := "text/plain", size := 10, suffix := "1700000000000-123456789" }

/-- A small valid png upload. -/
def pngFile : UploadedFile :=
  { originalname := "a.png", mimetype := "image/png", size := 10, suffix := "1700000000000-123456789" }

/-- A png declared correctly but one byte over the size limit. -/
def bigPngFile : UploadedFile :=
  { originalname := "a.png", mimetype := "image/png", size := 5 * 1024 * 1024 + 1, suffix := "1700000000000-123456789" }

/-- A file whose extension is ".pngx": not one of the four allowed
extensions, yet the substring regex matches it. -/
def pngxFile : UploadedFile :=
  { originalname := "a.pngx", mimetype := "image/png", size := 10, suffix := "1700000000000-123456789" }

/-- A form object with all three required fields non-empty. -/
def fdFull : FormData :=
  { title := some "A", coverImageUrl := none, coverImagePath := none,
    liveLink := none, description := some "d", techStack := none,
    price := none, details := some "x" }

/-- The same form object with the required `title` missing. -/
def fdNoTitle : FormData := { fdFull with title := none }

/-- The form object with an external image URL supplied. -/
def fdUrl : FormData := { fdFull with coverImageUrl := some "https://x/y.png" }

/-- The file `pngFile` as stored on disk. -/
def storedC : StoredFile :=
  { filename := "project-1700000000000-123456789.png", size := 10 }

/-- The document persisted for `fdFull` uploaded with `pngFile` from `st0`. -/
def projC : Project :=
  { title := some "A",
    coverImageUrl := "http://example.com/uploads/project-1700000000000-123456789.png",
    coverImagePath := "/uploads/project-1700000000000-123456789.png",
    liveLink := none, description := some "d", techStack := [],
    price := none, details := some "x", createdAt := 5 }

/-- The state after that multipart create. -/
def st2C : ServerState :=
  { store := [projC], files := [storedC], storeUp := true, now := 5 }

/-- The document persisted for `fdUrl` sent as plain JSON from `st0`. -/
def projUrl : Project :=
  { title := some "A", coverImageUrl := "https://x/y.png", coverImagePath := "",
    liveLink := none, description := some "d", techStack := [],
    price := none, details := some "x", createdAt := 5 }

/-! ### Helper lemmas -/

theorem str_data_append (s t : String) : (s ++ t).data = s.data ++ t.data := rfl

theorem takeWhile_append_all {α : Type} (p : α → Bool) :
    ∀ l r : List α, (∀ a ∈ l, p a = true) →
      (l ++ r).takeWhile p = l ++ r.takeWhile p
  | [], _, _ => by simp
  | a :: l, r, h => by
    have ha : p a = true := h a (List.mem_cons_self a l)
    simp only [List.cons_append, List.takeWhile_cons, ha, if_true,
      takeWhile_append_all p l r (fun b hb => h b (List.mem_cons_of_mem a hb))]

/-- `path.extname` yields either the empty string or a string starting with
a dot. -/
theorem extname_valid (s : String) :
    extname s = "" ∨ ∃ t, (extname s).data = '.' :: t := by
  unfold extname extnameList
  split
  · left; rfl
  · split
    · split
      · left; rfl
      · right; exact ⟨_, rfl⟩
    · left; rfl

/-- A timestamp-random suffix contains no dot. -/
theorem suffix_noDot {s : String} (h : suffixOk s = true) :
    ∀ c ∈ s.data, (c != '.') = true := by
  intro c hc
  have h2 : (c.isDigit || c == '-') = true := List.all_eq_true.mp h c hc
  cases hcc : c == '.' with
  | false => simp [bne, hcc]
  | true =>
    have hce : c = '.' := by simpa using hcc
    subst hce
    simp at h2

/-- The URL derived for an accepted upload is never the empty string. -/
theorem upload_url_ne_empty (pr hs rest : String) :
    decide (pr ++ "://" ++ hs ++ rest = "") = false := by
  apply decide_eq_false
  intro he
  have hd : (pr ++ "://" ++ hs ++ rest).data = ([] : List Char) := by rw [he]
  rw [str_data_append, str_data_append, str_data_append] at hd
  simp at hd

/-- Case analysis on `finishCreate`: either the save validates against a
reachable store and the document is prepended, or nothing changes and the
route answers 500. -/
theorem finishCreate_cases (fd : FormData) (u pa : String) (st : ServerState) :
    (requiredOk fd = true ∧ st.storeUp = true ∧
      finishCreate fd u pa st =
        (.created (mkProject fd (resolveUrl fd u) pa st.now),
         { st with store := mkProject fd (resolveUrl fd u) pa st.now :: st.store })) ∨
    ((requiredOk fd = false ∨ st.storeUp = false) ∧
      finishCreate fd u pa st = (.serverError, st)) := by
  unfold finishCreate
  by_cases h1 : requiredOk fd = true
  · by_cases h2 : st.storeUp = true
    · exact Or.inl ⟨h1, h2, by simp [h1, h2]⟩
    · exact Or.inr ⟨Or.inr (by simpa using h2), by simp [h1, h2]⟩
  · exact Or.inr ⟨Or.inl (by simpa using h1), by simp [h1]⟩

/-- Inversion for a 201 from the shared save path. -/
theorem finishCreate_created_iff (fd : FormData) (u pa : String)
    (st : ServerState) (proj : Project) (st2 : ServerState) :
    finishCreate fd u pa st = (.created proj, st2) ↔
      requiredOk fd = true ∧ st.storeUp = true ∧
        proj = mkProject fd (resolveUrl fd u) pa st.now ∧
        st2 = { st with store := proj :: st.store } := by
  constructor
  · intro h
    rcases finishCreate_cases fd u pa st with ⟨h1, h2, heq⟩ | ⟨_, heq⟩
    · rw [heq] at h
      have hp : Response.created (mkProject fd (resolveUrl fd u) pa st.now) =
          Response.created proj := congrArg Prod.fst h
      have hs2 : ({ st with store := mkProject fd (resolveUrl fd u) pa st.now :: st.store } :
          ServerState) = st2 := congrArg Prod.snd h
      have hproj : proj = mkProject fd (resolveUrl fd u) pa st.now :=
        (Response.created.inj hp).symm
      exact ⟨h1, h2, hproj, by rw [← hs2, hproj]⟩
    · rw [heq] at h
      exact absurd (congrArg Prod.fst h) (by simp)
  · rintro ⟨h1, h2, rfl, rfl⟩
    unfold finishCreate
    simp [h1, h2]

/-- The save path never touches the uploads directory. -/
theorem finishCreate_files (fd : FormData) (u pa : String) (st : ServerState) :
    ((finishCreate fd u pa st).2).files = st.files := by
  rcases finishCreate_cases fd u pa st with ⟨_, _, heq⟩ | ⟨_, heq⟩ <;> rw [heq]

/-- The save path answers 500 exactly when validation or the store fails. -/
theorem finishCreate_fst_serverError_iff (fd : FormData) (u pa : String)
    (st : ServerState) :
    (finishCreate fd u pa st).1 = Response.serverError ↔
      (requiredOk fd = false ∨ st.storeUp = false) := by
  rcases finishCreate_cases fd u pa st with ⟨h1, h2, heq⟩ | ⟨hor, heq⟩ <;> rw [heq]
  · simp [h1, h2]
  · exact ⟨fun _ => hor, fun _ => rfl⟩

/-- Inversion for an accepted upload. -/
theorem processUpload_ok_iff (f : UploadedFile) (stored : StoredFile) :
    processUpload f = .ok stored ↔
      fileFilterAccepts f = true ∧ f.size ≤ fileSizeLimit ∧
        stored = { filename := generatedFilename f, size := f.size } := by
  unfold processUpload
  by_cases hf : fileFilterAccepts f = true
  · by_cases hs : f.size ≤ fileSizeLimit
    · simp [hf, hs, eq_comm]
    · simp [hf, hs]
  · simp [hf]

/-- A file failing the type test is rejected with the fixed message. -/
theorem processUpload_error_filter (f : UploadedFile)
    (hf : fileFilterAccepts f = false) :
    processUpload f = .error "Only image files are allowed (jpeg, jpg, png, gif)" := by
  unfold processUpload
  simp [hf]

/-- A file passing the type test but oversize is rejected by the limit. -/
theorem processUpload_error_size (f : UploadedFile)
    (hf : fileFilterAccepts f = true) (hs : fileSizeLimit < f.size) :
    processUpload f = .error "File too large" := by
  unfold processUpload
  simp [hf, Nat.not_le.mpr hs]

/-- A 201 from the save path prepends exactly one document. -/
theorem finishCreate_store_length (fd : FormData) (u pa : String)
    (st : ServerState) (h : isCreatedB (finishCreate fd u pa st).1 = true) :
    ((finishCreate fd u pa st).2).store.length = st.store.length + 1 := by
  rcases finishCreate_cases fd u pa st with ⟨_, _, heq⟩ | ⟨_, heq⟩ <;> rw [heq] at h ⊢
  · simp
  · simp [isCreatedB] at h

/-- A 201 from the route prepends exactly one document. -/
theorem created_store_length (req : CreateRequest) (st : ServerState)
    (h : isCreatedB (handleCreateRequest req st).1 = true) :
    ((handleCreateRequest req st).2).store.length = st.store.length + 1 := by
  cases req with
  | jsonReq b pr hs =>
    cases b with
    | malformed => simp [handleCreateRequest, isCreatedB] at h
    | wellFormed fd =>
      simp only [handleCreateRequest] at h ⊢
      exact finishCreate_store_length fd "" "" st h
  | multipartReq file d pr hs =>
    cases file with
    | none =>
      cases hpd : parseData d with
      | none => simp [handleCreateRequest, hpd, isCreatedB] at h
      | some fd =>
        simp only [handleCreateRequest, hpd] at h ⊢
        exact finishCreate_store_length fd "" "" st h
    | some f =>
      cases hpf : processUpload f with
      | error msg => simp [handleCreateRequest, hpf, isCreatedB] at h
      | ok stored =>
        cases hpd : parseData d with
        | none => simp [handleCreateRequest, hpf, hpd, isCreatedB] at h
        | some fd =>
          simp only [handleCreateRequest, hpf, hpd] at h ⊢
          exact finishCreate_store_length fd _ _ _ h

/-- Running successful creates grows the store by one document each. -/
theorem runCreates_length :
    ∀ (reqs : List CreateRequest) (st : ServerState), allSucceed reqs st = true →
      (runCreates reqs st).store.length = st.store.length + reqs.length
  | [], st, _ => by simp [runCreates]
  | r :: rs, st, h => by
    rw [allSucceed, Bool.and_eq_true] at h
    have ih := runCreates_length rs (handleCreateRequest r st).2 h.2
    have hc := created_store_length r st h.1
    rw [runCreates, ih, hc]
    simp only [List.length_cons]
    omega

/-- Concatenating a dot-free suffix with an extension (empty or
dot-initial) can be undone: the suffix is recovered by reading up to the
first dot.  Hence the generated filename determines the suffix. -/
theorem suffix_append_inj {s1 s2 e1 e2 : String}
    (h1 : ∀ c ∈ s1.data, (c != '.') = true)
    (h2 : ∀ c ∈ s2.data, (c != '.') = true)
    (hv1 : e1 = "" ∨ ∃ t, e1.data = '.' :: t)
    (hv2 : e2 = "" ∨ ∃ t, e2.data = '.' :: t)
    (heq : "project-" ++ s1 ++ e1 = "project-" ++ s2 ++ e2) :
    s1 = s2 := by
  have hd : ("project-" ++ s1 ++ e1).data = ("project-" ++ s2 ++ e2).data :=
    congrArg String.data heq
  rw [str_data_append, str_data_append, str_data_append, str_data_append,
    List.append_assoc, List.append_assoc] at hd
  have hd2 : s1.data ++ e1.data = s2.data ++ e2.data :=
    List.append_cancel_left hd
  have t1 : (s1.data ++ e1.data).takeWhile (fun c => c != '.') = s1.data := by
    rw [takeWhile_append_all _ _ _ h1]
    rcases hv1 with rfl | ⟨t, ht⟩
    · simp
    · rw [ht]
      simp [List.takeWhile_cons]
  have t2 : (s2.data ++ e2.data).takeWhile (fun c => c != '.') = s2.data := by
    rw [takeWhile_append_all _ _ _ h2]
    rcases hv2 with rfl | ⟨t, ht⟩
    · simp
    · rw [ht]
      simp [List.takeWhile_cons]
  have hds : s1.data = s2.data := by rw [← t1, ← t2, hd2]
  cases s1
  cases s2
  simp only at hds
  rw [hds]

/-- Distinct timestamp-random suffixes give distinct generated filenames. -/
theorem generatedFilename_inj (f1 f2 : UploadedFile)
    (h1 : suffixOk f1.suffix = true) (h2 : suffixOk f2.suffix = true)
    (hne : f1.suffix ≠ f2.suffix) :
    generatedFilename f1 ≠ generatedFilename f2 := by
  intro heq
  unfold generatedFilename at heq
  exact hne (suffix_append_inj (suffix_noDot h1) (suffix_noDot h2)
    (extname_valid f1.originalname) (extname_valid f2.originalname) heq)

/-! ### Claim C2 -/

/-- C2, counterexample: a png whose declared media type and extension both
pass the allow-list test but which is one byte over the size limit is not
accepted, so acceptance is not equivalent to the two type checks passing. -/
theorem c2_counterexample :
    filetypesTest bigPngFile.mimetype = true ∧
    filetypesTest (toLowerStr (extname bigPngFile.originalname)) = true ∧
    acceptedB bigPngFile = false ∧
    processUpload bigPngFile = .error "File too large" := by
  decide

/-- C2, amended: a multipart file is accepted iff both regex type tests pass
and the size is within the 5 MiB limit; whenever the type test fails the
route answers 400 with exactly the fixed validation message. -/
theorem c2_amended_thm :
    (∀ f : UploadedFile,
        acceptedB f = (fileFilterAccepts f && decide (f.size ≤ fileSizeLimit))) ∧
    (∀ (f : UploadedFile) (d : Option Body) (pr hs : String) (st : ServerState),
        fileFilterAccepts f = false →
          handleCreateRequest (.multipartReq (some f) d pr hs) st =
            (.badRequest "Only image files are allowed (jpeg, jpg, png, gif)", st) ∧
          (Response.badRequest "Only image files are allowed (jpeg, jpg, png, gif)").status = 400 ∧
          (Response.badRequest "Only image files are allowed (jpeg, jpg, png, gif)").errorBody =
            some "Only image files are allowed (jpeg, jpg, png, gif)") := by
  constructor
  · intro f
    unfold acceptedB processUpload
    cases hf : fileFilterAccepts f with
    | false => simp [hf]
    | true => by_cases hsz : f.size ≤ fileSizeLimit <;> simp [hf, hsz]
  · intro f d pr hs st hf
    refine ⟨?_, rfl, rfl⟩
    simp [handleCreateRequest, processUpload_error_filter f hf]

/-- C2, witness: the amended theorem applied to a text file. -/
theorem c2_witness :
    handleCreateRequest (.multipartReq (some txtFile) none "http" "h") st0 =
      (.badRequest "Only image files are allowed (jpeg, jpg, png, gif)", st0) :=
  (c2_amended_thm.2 txtFile none "http" "h" st0 (by decide)).1

/-! ### Claim C3 -/

/-- C3, counterexample: a file named "a.pngx" with media type "image/png" is
accepted and stored with extension ".pngx", which is not one of the four
allowed extensions. -/
theorem c3_counterexample :
    processUpload pngxFile =
      .ok { filename := "project-1700000000000-123456789.pngx", size := 10 } ∧
    extname "project-1700000000000-123456789.pngx" = ".pngx" ∧
    ".pngx" ∉ ([".jpg", ".jpeg", ".png", ".gif"] : List String) := by
  decide

/-- C3, amended: an accepted upload is stored under the fixed prefix, the
suffix and the original extension, whose lowercased form passes the regex
allow-list test, and its size is at most 5 MiB; a file failing the type test
or oversize gets a 400 and leaves the state (hence the uploads directory)
unchanged. -/
theorem c3_amended_thm :
    (∀ (f : UploadedFile) (stored : StoredFile), processUpload f = .ok stored →
        stored.filename = "project-" ++ f.suffix ++ extname f.originalname ∧
        filetypesTest (toLowerStr (extname f.originalname)) = true ∧
        stored.size ≤ fileSizeLimit) ∧
    (∀ (f : UploadedFile) (d : Option Body) (pr hs : String) (st : ServerState),
        fileFilterAccepts f = false ∨ fileSizeLimit < f.size →
          ∃ msg, handleCreateRequest (.multipartReq (some f) d pr hs) st =
            (.badRequest msg, st) ∧ (Response.badRequest msg).status = 400) := by
  constructor
  · intro f stored hok
    obtain ⟨hf, hsz, rfl⟩ := (processUpload_ok_iff f stored).mp hok
    refine ⟨rfl, ?_, hsz⟩
    unfold fileFilterAccepts at hf
    rw [Bool.and_eq_true] at hf
    exact hf.2
  · intro f d pr hs st hcase
    rcases hcase with hf | hsz
    · exact ⟨"Only image files are allowed (jpeg, jpg, png, gif)",
        by simp [handleCreateRequest, processUpload_error_filter f hf], rfl⟩
    · cases hf2 : fileFilterAccepts f with
      | false =>
        exact ⟨"Only image files are allowed (jpeg, jpg, png, gif)",
          by simp [handleCreateRequest, processUpload_error_filter f hf2], rfl⟩
      | true =>
        exact ⟨"File too large",
          by simp [handleCreateRequest, processUpload_error_size f hf2 hsz], rfl⟩

/-- C3, witness: the amended theorem applied to a small valid png. -/
theorem c3_witness :
    ({ filename := "project-1700000000000-123456789.png", size := 10 } : StoredFile).filename =
      "project-" ++ pngFile.suffix ++ extname pngFile.originalname ∧
    filetypesTest (toLowerStr (extname pngFile.originalname)) = true ∧
    ({ filename := "project-1700000000000-123456789.png", size := 10 } : StoredFile).size ≤
      fileSizeLimit :=
  c3_amended_thm.1 pngFile
    { filename := "project-1700000000000-123456789.png", size := 10 } (by decide)

/-! ### Claim C8 -/

/-- C8, counterexample: two distinct uploads (different content sizes) whose
timestamp-random draws coincide receive the same generated name, so names
for distinct uploads are not unconditionally pairwise distinct. -/
theorem c8_counterexample :
    pngFile ≠ { pngFile with size := 11 } ∧
    generatedFilename pngFile = generatedFilename { pngFile with size := 11 } ∧
    acceptedB pngFile = true ∧ acceptedB { pngFile with size := 11 } = true := by
  decide

/-- C8, amended: an accepted file is recorded in the uploads directory under
the name "project-" plus the timestamp-random suffix plus the original
extension, and any two uploads whose suffix draws differ get distinct names
(the naming scheme is injective in the suffix, the suffix being dot-free),
so no stored file is overwritten unless the clock and random draw both
coincide. -/
theorem c8_amended_thm :
    (∀ f1 f2 : UploadedFile, suffixOk f1.suffix = true → suffixOk f2.suffix = true →
        f1.suffix ≠ f2.suffix → generatedFilename f1 ≠ generatedFilename f2) ∧
    (∀ (f : UploadedFile) (stored : StoredFile), processUpload f = .ok stored →
        stored.filename = generatedFilename f) ∧
    (∀ (f : UploadedFile) (d : Option Body) (pr hs : String) (st : ServerState)
        (stored : StoredFile), processUpload f = .ok stored →
        ((handleCreateRequest (.multipartReq (some f) d pr hs) st).2).files =
          stored :: st.files) := by
  refine ⟨generatedFilename_inj, ?_, ?_⟩
  · intro f stored hok
    obtain ⟨_, _, rfl⟩ := (processUpload_ok_iff f stored).mp hok
    rfl
  · intro f d pr hs st stored hok
    cases hpd : parseData d with
    | none => simp [handleCreateRequest, hok, hpd]
    | some fd => simp [handleCreateRequest, hok, hpd, finishCreate_files]

/-- C8, witness: distinct suffix draws give distinct names on a concrete
pair of uploads. -/
theorem c8_witness :
    generatedFilename pngFile ≠
      generatedFilename { pngFile with suffix := "1700000000000-999" } :=
  c8_amended_thm.1 pngFile { pngFile with suffix := "1700000000000-999" }
    (by decide) (by decide) (by decide)

/-! ### Claim C10 -/

/-- C10: a multipart request whose file is accepted but whose `data` field
is absent or malformed gets a 500, the store is unchanged, and the written
upload stays on disk. -/
theorem c10_thm (f : UploadedFile) (d : Option Body) (pr hs : String)
    (st : ServerState) (stored : StoredFile)
    (hok : processUpload f = .ok stored) (hd : parseData d = none) :
    handleCreateRequest (.multipartReq (some f) d pr hs) st =
      (.serverError, { st with files := stored :: st.files }) ∧
    Response.serverError.status = 500 ∧
    Response.serverError.errorBody = some "Internal server error" ∧
    stored ∈ ({ st with files := stored :: st.files } : ServerState).files ∧
    ({ st with files := stored :: st.files } : ServerState).store = st.store := by
  refine ⟨?_, rfl, rfl, List.mem_cons_self _ _, rfl⟩
  simp [handleCreateRequest, hok, hd]

/-- C10, witness: a concrete accepted png with a missing `data` field. -/
theorem c10_witness :
    handleCreateRequest (.multipartReq (some pngFile) none "http" "h") st0 =
      (.serverError,
        { st0 with files := [{ filename := "project-1700000000000-123456789.png", size := 10 }] }) :=
  (c10_thm pngFile none "http" "h" st0
    { filename := "project-1700000000000-123456789.png", size := 10 } (by decide) rfl).1

/-! ### Claim C1 -/

/-- C1, counterexample: a multipart request whose fields include non-empty
title, description and details but whose file is a text file is answered
with 400, not 201. -/
theorem c1_counterexample :
    truthyB fdFull.title = true ∧ truthyB fdFull.description = true ∧
    truthyB fdFull.details = true ∧
    (handleCreateRequest
        (.multipartReq (some txtFile) (some (.wellFormed fdFull)) "http" "h") st0).1.status =
      400 := by
  decide

/-- C1, amended: a create request whose fields include non-empty title,
description and details, whose upload (if any) is not rejected, and which
meets a reachable store, is answered 201 with a project echoing those
fields, the techStack defaulting to the empty sequence. -/
theorem c1_amended_thm (req : CreateRequest) (st : ServerState) (fd : FormData)
    (hup : st.storeUp = true)
    (hfd : reqFormData req = some fd)
    (hrej : uploadRejected req = false)
    (ht : truthyB fd.title = true) (hdsc : truthyB fd.description = true)
    (hdet : truthyB fd.details = true) :
    ∃ (proj : Project) (st2 : ServerState),
      handleCreateRequest req st = (.created proj, st2) ∧
      (Response.created proj).status = 201 ∧
      proj.title = fd.title ∧ proj.description = fd.description ∧
      proj.details = fd.details ∧ (fd.techStack = none → proj.techStack = []) := by
  have hreq : requiredOk fd = true := by simp [requiredOk, ht, hdsc, hdet]
  have main : ∀ (u pa : String) (stx : ServerState), stx.storeUp = true →
      ∃ proj st2, finishCreate fd u pa stx = (.created proj, st2) ∧
        proj.title = fd.title ∧ proj.description = fd.description ∧
        proj.details = fd.details ∧ (fd.techStack = none → proj.techStack = []) := by
    intro u pa stx hx
    rcases finishCreate_cases fd u pa stx with ⟨_, _, heq⟩ | ⟨hor, _⟩
    · refine ⟨_, _, heq, rfl, rfl, rfl, ?_⟩
      intro hts
      simp [mkProject, hts]
    · rcases hor with h | h
      · rw [hreq] at h
        exact absurd h (by simp)
      · rw [hx] at h
        exact absurd h (by simp)
  cases req with
  | jsonReq b pr hs =>
    cases b with
    | malformed => simp [reqFormData] at hfd
    | wellFormed fd' =>
      simp only [reqFormData, Option.some.injEq] at hfd
      subst hfd
      obtain ⟨proj, st2, heq, h1, h2, h3, h4⟩ := main "" "" st hup
      exact ⟨proj, st2, by simp only [handleCreateRequest]; exact heq, rfl, h1, h2, h3, h4⟩
  | multipartReq file d pr hs =>
    cases file with
    | none =>
      simp only [reqFormData] at hfd
      obtain ⟨proj, st2, heq, h1, h2, h3, h4⟩ := main "" "" st hup
      refine ⟨proj, st2, ?_, rfl, h1, h2, h3, h4⟩
      simp only [handleCreateRequest, hfd]
      exact heq
    | some f =>
      cases hpf : processUpload f with
      | error msg => simp [uploadRejected, hpf] at hrej
      | ok stored =>
        simp only [reqFormData] at hfd
        obtain ⟨proj, st2, heq, h1, h2, h3, h4⟩ :=
          main (pr ++ "://" ++ hs ++ ("/uploads/" ++ stored.filename))
            ("/uploads/" ++ stored.filename) { st with files := stored :: st.files } hup
        refine ⟨proj, st2, ?_, rfl, h1, h2, h3, h4⟩
        simp only [handleCreateRequest, hpf, hfd]
        exact heq

/-- C1, witness: the amended theorem at a concrete valid JSON request. -/
theorem c1_witness :
    ∃ (proj : Project) (st2 : ServerState),
      handleCreateRequest (.jsonReq (.wellFormed fdFull) "http" "h") st0 =
        (.created proj, st2) ∧
      (Response.created proj).status = 201 ∧
      proj.title = fdFull.title ∧ proj.description = fdFull.description ∧
      proj.details = fdFull.details ∧ (fdFull.techStack = none → proj.techStack = []) :=
  c1_amended_thm (.jsonReq (.wellFormed fdFull) "http" "h") st0 fdFull rfl rfl rfl
    (by decide) (by decide) (by decide)

/-! ### Claim C4 -/

/-- C4, counterexample: a multipart request with a missing title and a text
file is answered 400 by upload validation, not 500. -/
theorem c4_counterexample :
    fdNoTitle.title = none ∧
    handleCreateRequest
        (.multipartReq (some txtFile) (some (.wellFormed fdNoTitle)) "http" "h") st0 =
      (.badRequest "Only image files are allowed (jpeg, jpg, png, gif)", st0) ∧
    (Response.badRequest "Only image files are allowed (jpeg, jpg, png, gif)").status = 400 := by
  decide

/-- C4, amended: a create request reaching the save step with title,
description or details missing or empty is answered 500 and persists
nothing; and every state whose documents satisfy the required-fields
invariant still satisfies it after any create request. -/
theorem c4_amended_thm :
    (∀ (req : CreateRequest) (st : ServerState) (fd : FormData),
        reqFormData req = some fd → uploadRejected req = false →
        requiredOk fd = false →
          (handleCreateRequest req st).1 = Response.serverError ∧
          ((handleCreateRequest req st).2).store = st.store ∧
          Response.serverError.status = 500) ∧
    (∀ st : ServerState, (∀ q ∈ st.store, projInv q = true) →
        ∀ (req : CreateRequest) (q : Project),
          q ∈ ((handleCreateRequest req st).2).store → projInv q = true) := by
  constructor
  · intro req st fd hfd hrej hr
    have main : ∀ (u pa : String) (stx : ServerState),
        (finishCreate fd u pa stx).1 = Response.serverError ∧
          ((finishCreate fd u pa stx).2).store = stx.store := by
      intro u pa stx
      rcases finishCreate_cases fd u pa stx with ⟨h1, _, _⟩ | ⟨_, heq⟩
      · rw [hr] at h1
        exact absurd h1 (by simp)
      · rw [heq]
        exact ⟨rfl, rfl⟩
    cases req with
    | jsonReq b pr hs =>
      cases b with
      | malformed => simp [reqFormData] at hfd
      | wellFormed fd' =>
        simp only [reqFormData, Option.some.injEq] at hfd
        subst hfd
        simp only [handleCreateRequest]
        exact ⟨(main "" "" st).1, (main "" "" st).2, rfl⟩
    | multipartReq file d pr hs =>
      cases file with
      | none =>
        simp only [reqFormData] at hfd
        simp only [handleCreateRequest, hfd]
        exact ⟨(main "" "" st).1, (main "" "" st).2, rfl⟩
      | some f =>
        cases hpf : processUpload f with
        | error msg => simp [uploadRejected, hpf] at hrej
        | ok stored =>
          simp only [reqFormData] at hfd
          simp only [handleCreateRequest, hpf, hfd]
          exact ⟨(main _ _ _).1, (main _ _ _).2, rfl⟩
  · intro st hinv req q hq
    have mainInv : ∀ (fd : FormData) (u pa : String) (stx : ServerState),
        (∀ r ∈ stx.store, projInv r = true) →
        ∀ r ∈ ((finishCreate fd u pa stx).2).store, projInv r = true := by
      intro fd u pa stx hx r hr
      rcases finishCreate_cases fd u pa stx with ⟨h1, _, heq⟩ | ⟨_, heq⟩
      · rw [heq] at hr
        rcases List.mem_cons.mp hr with rfl | hmem
        · simpa [projInv, mkProject, requiredOk] using h1
        · exact hx r hmem
      · rw [heq] at hr
        exact hx r hr
    cases req with
    | jsonReq b pr hs =>
      cases b with
      | malformed =>
        simp only [handleCreateRequest] at hq
        exact hinv q hq
      | wellFormed fd =>
        simp only [handleCreateRequest] at hq
        exact mainInv fd "" "" st hinv q hq
    | multipartReq file d pr hs =>
      cases file with
      | none =>
        cases hpd : parseData d with
        | none =>
          simp only [handleCreateRequest, hpd] at hq
          exact hinv q hq
        | some fd =>
          simp only [handleCreateRequest, hpd] at hq
          exact mainInv fd "" "" st hinv q hq
      | some f =>
        cases hpf : processUpload f with
        | error msg =>
          simp only [handleCreateRequest, hpf] at hq
          exact hinv q hq
        | ok stored =>
          cases hpd : parseData d with
          | none =>
            simp only [handleCreateRequest, hpf, hpd] at hq
            exact hinv q hq
          | some fd =>
            simp only [handleCreateRequest, hpf, hpd] at hq
            exact mainInv fd _ _ { st with files := stored :: st.files } hinv q hq

/-- C4, witness: the amended theorem at a JSON request missing its title. -/
theorem c4_witness :
    (handleCreateRequest (.jsonReq (.wellFormed fdNoTitle) "http" "h") st0).1 =
      Response.serverError ∧
    ((handleCreateRequest (.jsonReq (.wellFormed fdNoTitle) "http" "h") st0).2).store =
      st0.store ∧
    Response.serverError.status = 500 :=
  c4_amended_thm.1 (.jsonReq (.wellFormed fdNoTitle) "http" "h") st0 fdNoTitle rfl rfl
    (by decide)

/-! ### Claim C5 -/

/-- C5: when a file is accepted, the persisted cover path and URL are
derived from the stored file (protocol, host, static prefix, generated
name) whatever the body says; when no file is present and the body supplies
a cover URL, that value is stored verbatim. -/
theorem c5_thm :
    (∀ (f : UploadedFile) (d : Option Body) (pr hs : String) (st : ServerState)
        (stored : StoredFile) (proj : Project) (st2 : ServerState),
        processUpload f = .ok stored →
        handleCreateRequest (.multipartReq (some f) d pr hs) st = (.created proj, st2) →
          proj.coverImagePath = "/uploads/" ++ stored.filename ∧
          proj.coverImageUrl = pr ++ "://" ++ hs ++ ("/uploads/" ++ stored.filename)) ∧
    (∀ (req : CreateRequest) (st : ServerState) (fd : FormData) (u : String)
        (proj : Project) (st2 : ServerState),
        reqFile req = none → reqFormData req = some fd → fd.coverImageUrl = some u →
        handleCreateRequest req st = (.created proj, st2) →
          proj.coverImageUrl = u) := by
  constructor
  · intro f d pr hs st stored proj st2 hok heq
    cases hpd : parseData d with
    | none => simp [handleCreateRequest, hok, hpd] at heq
    | some fd =>
      simp only [handleCreateRequest, hok, hpd] at heq
      obtain ⟨_, _, hproj, _⟩ := (finishCreate_created_iff fd _ _ _ proj st2).mp heq
      subst hproj
      refine ⟨rfl, ?_⟩
      show resolveUrl fd (pr ++ "://" ++ hs ++ ("/uploads/" ++ stored.filename)) = _
      unfold resolveUrl
      rw [upload_url_ne_empty]
      simp
  · have main : ∀ (fd : FormData) (u : String) (st : ServerState) (proj : Project)
        (st2 : ServerState), fd.coverImageUrl = some u →
        finishCreate fd "" "" st = (.created proj, st2) → proj.coverImageUrl = u := by
      intro fd u st proj st2 hurl heq
      obtain ⟨_, _, hproj, _⟩ := (finishCreate_created_iff fd _ _ _ proj st2).mp heq
      subst hproj
      show resolveUrl fd "" = u
      unfold resolveUrl
      rw [hurl]
      by_cases hu : u = ""
      · subst hu
        simp [truthyB]
      · simp [truthyB, hu]
    intro req st fd u proj st2 hfile hfd hurl heq
    cases req with
    | jsonReq b pr hs =>
      cases b with
      | malformed => simp [reqFormData] at hfd
      | wellFormed fd' =>
        simp only [reqFormData, Option.some.injEq] at hfd
        subst hfd
        simp only [handleCreateRequest] at heq
        exact main _ u st proj st2 hurl heq
    | multipartReq file d pr hs =>
      cases file with
      | some f => simp [reqFile] at hfile
      | none =>
        simp only [reqFormData] at hfd
        simp only [handleCreateRequest, hfd] at heq
        exact main fd u st proj st2 hurl heq

/-- C5, witness: both parts at concrete requests — an accepted upload whose
derived URL wins, and a JSON body whose external URL is stored verbatim. -/
theorem c5_witness :
    (projC.coverImagePath = "/uploads/" ++ storedC.filename ∧
      projC.coverImageUrl = "http" ++ "://" ++ "example.com" ++ ("/uploads/" ++ storedC.filename)) ∧
    projUrl.coverImageUrl = "https://x/y.png" :=
  ⟨c5_thm.1 pngFile (some (.wellFormed fdFull)) "http" "example.com" st0 storedC projC st2C
      (by decide) (by decide),
    c5_thm.2 (.jsonReq (.wellFormed fdUrl) "http" "h") st0 fdUrl "https://x/y.png" projUrl
      { st0 with store := [projUrl] } rfl rfl rfl (by decide)⟩

/-! ### Claim C6 -/

/-- C6: the listing is a permutation of the persisted documents (everything
is returned, nothing else, no filtering or limit), sorted by createdAt
descending; and after N successful creates the listing holds exactly N more
entries than before. -/
theorem c6_thm :
    (∀ st : ServerState, (listProjects st).Perm st.store) ∧
    (∀ st : ServerState, List.Sorted createdDesc (listProjects st)) ∧
    (∀ (reqs : List CreateRequest) (st : ServerState), allSucceed reqs st = true →
        (listProjects (runCreates reqs st)).length = st.store.length + reqs.length) := by
  refine ⟨?_, ?_, ?_⟩
  · intro st
    exact List.perm_insertionSort createdDesc st.store
  · intro st
    exact List.sorted_insertionSort createdDesc st.store
  · intro reqs st h
    have hp := List.perm_insertionSort createdDesc (runCreates reqs st).store
    exact hp.length_eq.trans (runCreates_length reqs st h)

/-- C6, witness: one successful create starting from the empty store gives a
listing of length one. -/
theorem c6_witness :
    (listProjects (runCreates [CreateRequest.jsonReq (.wellFormed fdFull) "http" "h"] st0)).length =
      st0.store.length + [CreateRequest.jsonReq (.wellFormed fdFull) "http" "h"].length :=
  c6_thm.2.2 [CreateRequest.jsonReq (.wellFormed fdFull) "http" "h"] st0 (by decide)

/-! ### Claim C7 -/

/-- C7, counterexample: a plain JSON create request with a malformed body is
rejected by the `express.json` body parser with status 400 before the route
runs, not with the claimed 500. -/
theorem c7_counterexample :
    handleCreateRequest (.jsonReq .malformed "http" "h") st0 = (.jsonParseFailure, st0) ∧
    Response.jsonParseFailure.status = 400 ∧
    Response.jsonParseFailure.status ≠ 500 := by
  decide

/-- C7, amended: failures inside the route other than upload validation —
a missing or malformed multipart `data` field, failed required-field
validation, an unreachable store — are exactly the cases answered 500, whose
body is the fixed "Internal server error"; a malformed plain JSON body is
instead rejected by the body-parsing middleware with a 400 before the route
runs. -/
theorem c7_amended_thm :
    (∀ (req : CreateRequest) (st : ServerState),
        (handleCreateRequest req st).1 = Response.serverError ↔ routeFails req st = true) ∧
    Response.serverError.status = 500 ∧
    Response.serverError.errorBody = some "Internal server error" ∧
    (∀ (pr hs : String) (st : ServerState),
        handleCreateRequest (.jsonReq .malformed pr hs) st = (.jsonParseFailure, st) ∧
        Response.jsonParseFailure.status = 400) := by
  refine ⟨?_, rfl, rfl, fun pr hs st => ⟨rfl, rfl⟩⟩
  intro req st
  have hfin : ∀ (fd : FormData) (u pa : String) (stx : ServerState),
      ((finishCreate fd u pa stx).1 = Response.serverError ↔
        (!requiredOk fd || !stx.storeUp) = true) := by
    intro fd u pa stx
    rw [finishCreate_fst_serverError_iff]
    simp [Bool.not_eq_true']
  cases req with
  | jsonReq b pr hs =>
    cases b with
    | malformed => simp [handleCreateRequest, routeFails]
    | wellFormed fd =>
      simp only [handleCreateRequest, routeFails]
      exact hfin fd "" "" st
  | multipartReq file d pr hs =>
    cases file with
    | none =>
      cases hpd : parseData d with
      | none => simp [handleCreateRequest, routeFails, hpd]
      | some fd =>
        simp only [handleCreateRequest, routeFails, hpd]
        exact hfin fd "" "" st
    | some f =>
      cases hpf : processUpload f with
      | error msg => simp [handleCreateRequest, routeFails, hpf]
      | ok stored =>
        cases hpd : parseData d with
        | none => simp [handleCreateRequest, routeFails, hpf, hpd]
        | some fd =>
          simp only [handleCreateRequest, routeFails, hpf, hpd]
          exact hfin fd _ _ _

/-- C7, witness: a JSON request missing its title makes the route answer
500 via the amended characterization. -/
theorem c7_witness :
    (handleCreateRequest (.jsonReq (.wellFormed fdNoTitle) "http" "h") st0).1 =
      Response.serverError :=
  (c7_amended_thm.1 (.jsonReq (.wellFormed fdNoTitle) "http" "h") st0).mpr (by decide)

/-! ### Claim C9 -/

/-- C9: a plain JSON create stores the empty cover path; a client-supplied
coverImagePath field is ignored entirely (the response and new state do not
depend on it); and every persisted cover path is server-derived — empty or
the static prefix plus the generated filename of the accepted upload. -/
theorem c9_thm :
    (∀ (fd : FormData) (pr hs : String) (st : ServerState) (proj : Project)
        (st2 : ServerState),
        handleCreateRequest (.jsonReq (.wellFormed fd) pr hs) st = (.created proj, st2) →
          proj.coverImagePath = "") ∧
    (∀ (req : CreateRequest) (x : Option String) (st : ServerState),
        handleCreateRequest (req.setCoverImagePath x) st = handleCreateRequest req st) ∧
    (∀ (req : CreateRequest) (st : ServerState) (proj : Project) (st2 : ServerState),
        handleCreateRequest req st = (.created proj, st2) →
          proj.coverImagePath = "" ∨
          ∃ (f : UploadedFile) (stored : StoredFile),
            reqFile req = some f ∧ processUpload f = .ok stored ∧
            proj.coverImagePath = "/uploads/" ++ stored.filename) := by
  refine ⟨?_, ?_, ?_⟩
  · intro fd pr hs st proj st2 heq
    simp only [handleCreateRequest] at heq
    obtain ⟨_, _, hproj, _⟩ := (finishCreate_created_iff fd _ _ _ proj st2).mp heq
    subst hproj
    rfl
  · intro req x st
    cases req with
    | jsonReq b pr hs =>
      cases b with
      | malformed => rfl
      | wellFormed fd => rfl
    | multipartReq file d pr hs =>
      cases d with
      | none => rfl
      | some b =>
        cases b with
        | malformed => rfl
        | wellFormed fd =>
          cases file with
          | none => rfl
          | some f => rfl
  · intro req st proj st2 heq
    cases req with
    | jsonReq b pr hs =>
      cases b with
      | malformed => simp [handleCreateRequest, Prod.mk.injEq] at heq
      | wellFormed fd =>
        left
        simp only [handleCreateRequest] at heq
        obtain ⟨_, _, hproj, _⟩ := (finishCreate_created_iff fd _ _ _ proj st2).mp heq
        subst hproj
        rfl
    | multipartReq file d pr hs =>
      cases file with
      | none =>
        cases hpd : parseData d with
        | none => simp [handleCreateRequest, hpd, Prod.mk.injEq] at heq
        | some fd =>
          left
          simp only [handleCreateRequest, hpd] at heq
          obtain ⟨_, _, hproj, _⟩ := (finishCreate_created_iff fd _ _ _ proj st2).mp heq
          subst hproj
          rfl
      | some f =>
        cases hpf : processUpload f with
        | error msg => simp [handleCreateRequest, hpf, Prod.mk.injEq] at heq
        | ok stored =>
          cases hpd : parseData d with
          | none => simp [handleCreateRequest, hpf, hpd, Prod.mk.injEq] at heq
          | some fd =>
            right
            refine ⟨f, stored, rfl, hpf, ?_⟩
            simp only [handleCreateRequest, hpf, hpd] at heq
            obtain ⟨_, _, hproj, _⟩ := (finishCreate_created_iff fd _ _ _ proj st2).mp heq
            subst hproj
            rfl

/-- C9, witness: a concrete JSON create stores the empty cover path, and
injecting a client-supplied coverImagePath changes nothing. -/
theorem c9_witness :
    projUrl.coverImagePath = "" ∧
    handleCreateRequest
        ((CreateRequest.jsonReq (.wellFormed fdFull) "http" "h").setCoverImagePath
          (some "client-supplied")) st0 =
      handleCreateRequest (.jsonReq (.wellFormed fdFull) "http" "h") st0 :=
  ⟨c9_thm.1 fdUrl "http" "h" st0 projUrl { st0 with store := [projUrl] } (by decide),
    c9_thm.2.1 (.jsonReq (.wellFormed fdFull) "http" "h") (some "client-supplied") st0⟩

end PostEvent
